import Mathlib

/-!
Shallow embedding of the valuation and performance-analytics engine of the
cactus-wealth backend (`src/cactus_wealth/services.py` together with
`src/cactus_wealth/repositories/portfolio_repository.py`).

Monetary amounts, prices and weights are modelled as exact rationals (the
Python code computes with floats); real-valued performance statistics that
involve square roots and real exponents are modelled over the reals.
Calendar dates and timestamps are modelled as integers: historical series are
date-indexed daily series (spec section 6), and the `"%Y-%m-%d"` rendering used
by the cache layer is injective on calendar dates and inverted by
`pd.to_datetime`, so serialising a date carries it through unchanged.
Fallible Python code (raising) is modelled with `Except String`.
-/

namespace CactusWealth

/-- Python `round(x, n)` rounds half to even.  This is the integer-valued
rounding used by `round2`/`round4` below. -/
def roundHalfEven (q : ℚ) : ℤ :=
  let f := ⌊q⌋
  let r := q - f
  if r < 1/2 then f else if 1/2 < r then f + 1 else if Even f then f else f + 1

/-- Python `round(x, 2)` as used on valuation outputs. -/
def round2 (q : ℚ) : ℚ := (roundHalfEven (q * 100) : ℚ) / 100

/-- Python `round(x, 4)` as used on the monthly-growth output. -/
def round4 (q : ℚ) : ℚ := (roundHalfEven (q * 10000) : ℚ) / 10000

/-- A portfolio position: asset ticker, quantity and unit purchase price
(`models.Position` restricted to the fields the valuation engine reads). -/
structure Position where
  ticker : String
  quantity : ℚ
  purchase_price : ℚ
deriving DecidableEq

/-- A portfolio with its positions, as loaded by
`PortfolioRepository.get_with_positions`. -/
structure Portfolio where
  id : ℕ
  name : String
  positions : List Position
deriving DecidableEq

/-- `schemas.PortfolioValuation` (the derived valuation record; the
`last_updated` wall-clock field is omitted, no claim mentions it). -/
structure PortfolioValuation where
  portfolio_id : ℕ
  portfolio_name : String
  total_value : ℚ
  total_cost_basis : ℚ
  total_pnl : ℚ
  total_pnl_percentage : ℚ
  positions_count : ℕ
deriving DecidableEq

/-- The per-position loop of `PortfolioService.get_portfolio_valuation`
(services.py lines 212-244): accumulates market value, cost basis and the
priced-position count; any price-fetch failure re-raises at once. -/
def valuate_positions (prices : String → Except String ℚ) :
    List Position → ℚ → ℚ → ℕ → Except String (ℚ × ℚ × ℕ)
  | [], total_value, total_cost, count => .ok (total_value, total_cost, count)
  | pos :: rest, total_value, total_cost, count =>
    match prices pos.ticker with
    | .error e => .error ("Failed to valuate position " ++ pos.ticker ++ ": " ++ e)
    | .ok price =>
        valuate_positions prices rest (total_value + pos.quantity * price)
          (total_cost + pos.quantity * pos.purchase_price) (count + 1)

/-- `PortfolioService.get_portfolio_valuation` (services.py lines 170-271).
The environment `prices` is `MarketDataProvider.get_current_price`.  Note the
returned record rounds every monetary field with `round(x, 2)`. -/
def get_portfolio_valuation (prices : String → Except String ℚ)
    (portfolios : List Portfolio) (portfolio_id : ℕ) :
    Except String PortfolioValuation :=
  match portfolios.find? (fun p => p.id == portfolio_id) with
  | none => .error ("Portfolio with ID " ++ toString portfolio_id ++ " not found")
  | some portfolio =>
    if portfolio.positions = [] then
      .ok { portfolio_id := portfolio_id, portfolio_name := portfolio.name,
            total_value := 0, total_cost_basis := 0, total_pnl := 0,
            total_pnl_percentage := 0, positions_count := 0 }
    else
      match valuate_positions prices portfolio.positions 0 0 0 with
      | .error e => .error e
      | .ok (total_value, total_cost_basis, positions_valued) =>
        let total_pnl := total_value - total_cost_basis
        let total_pnl_percentage :=
          if 0 < total_cost_basis then total_pnl / total_cost_basis * 100 else 0
        .ok { portfolio_id := portfolio_id, portfolio_name := portfolio.name,
              total_value := round2 total_value,
              total_cost_basis := round2 total_cost_basis,
              total_pnl := round2 total_pnl,
              total_pnl_percentage := round2 total_pnl_percentage,
              positions_count := positions_valued }

/-- `models.PortfolioSnapshot`: portfolio id, monetary value, timestamp. -/
structure PortfolioSnapshot where
  portfolio_id : ℕ
  value : ℚ
  timestamp : ℤ
deriving DecidableEq

/-- The parameter names of `PortfolioRepository.create_snapshot(self,
portfolio_id: int, value)` (portfolio_repository.py line 182): there is no
`timestamp` parameter. -/
def create_snapshot_params : List String := ["portfolio_id", "value"]

/-- The keyword arguments the service passes at the call site in
`PortfolioService.create_snapshot_for_portfolio` (services.py lines 293-297):
`portfolio_id=...`, `value=...`, `timestamp=datetime.utcnow()`. -/
def create_snapshot_call_kwargs : List String := ["portfolio_id", "value", "timestamp"]

/-- Python keyword binding: passing a keyword argument that is not among the
callee's parameters raises `TypeError` before the callee body runs. -/
def bind_keywords (params kwargs : List String) : Except String Unit :=
  match kwargs.find? (fun k => !(params.contains k)) with
  | some k => .error ("TypeError: got an unexpected keyword argument " ++ k)
  | none => .ok ()

/-- `PortfolioService.create_snapshot_for_portfolio` (services.py lines
273-330) against a snapshot store modelled as a list.  The `try` body calls
the valuation engine, then calls `PortfolioRepository.create_snapshot` with a
`timestamp=` keyword the repository signature does not accept; any exception
in the body is caught by a handler that runs `self.db.rollback()`, but
`PortfolioService.__init__` (services.py lines 153-168) never sets `self.db`,
so the handler itself raises `AttributeError`.  The returned pair is
(result, snapshot store after the call). -/
def create_snapshot_for_portfolio (prices : String → Except String ℚ)
    (portfolios : List Portfolio) (portfolio_id : ℕ) (now : ℤ)
    (snapshots : List PortfolioSnapshot) :
    Except String PortfolioSnapshot × List PortfolioSnapshot :=
  match get_portfolio_valuation prices portfolios portfolio_id with
  | .error _ =>
      (.error "AttributeError: PortfolioService object has no attribute db", snapshots)
  | .ok valuation =>
      match bind_keywords create_snapshot_params create_snapshot_call_kwargs with
      | .error _ =>
          (.error "AttributeError: PortfolioService object has no attribute db", snapshots)
      | .ok _ =>
          let snap : PortfolioSnapshot := ⟨portfolio_id, valuation.total_value, now⟩
          (.ok snap, snapshots ++ [snap])

/-- The per-portfolio `MAX(timestamp)` subquery of
`DashboardService._calculate_monthly_growth` (services.py lines 796-803). -/
def latest_timestamp (snapshots : List PortfolioSnapshot) (pid : ℕ) : Option ℤ :=
  ((snapshots.filter (fun s => s.portfolio_id == pid)).map (fun s => s.timestamp)).max?

/-- The per-portfolio `MAX(timestamp)` subquery restricted to
`timestamp <= current_month_start` (services.py lines 825-835). -/
def latest_timestamp_before (snapshots : List PortfolioSnapshot) (pid : ℕ)
    (cutoff : ℤ) : Option ℤ :=
  ((snapshots.filter
      (fun s => s.portfolio_id == pid && decide (s.timestamp ≤ cutoff))).map
    (fun s => s.timestamp)).max?

/-- The joined row set whose values the current-AUM query sums
(services.py lines 805-815): snapshots of in-scope portfolios whose timestamp
equals their portfolio's latest timestamp. -/
def current_aum_rows (portfolio_ids : List ℕ)
    (snapshots : List PortfolioSnapshot) : List PortfolioSnapshot :=
  snapshots.filter (fun s =>
    portfolio_ids.contains s.portfolio_id &&
      (latest_timestamp snapshots s.portfolio_id == some s.timestamp))

/-- The joined row set whose values the start-of-month-AUM query sums
(services.py lines 837-847). -/
def month_start_aum_rows (portfolio_ids : List ℕ)
    (snapshots : List PortfolioSnapshot) (month_start : ℤ) : List PortfolioSnapshot :=
  snapshots.filter (fun s =>
    portfolio_ids.contains s.portfolio_id &&
      (latest_timestamp_before snapshots s.portfolio_id month_start == some s.timestamp))

/-- SQL `SUM(value)`: `NULL` (here `none`) on an empty row set. -/
def sum_values : List PortfolioSnapshot → Option ℚ
  | [] => none
  | rows => some ((rows.map (fun s => s.value)).sum)

/-- `DashboardService._calculate_monthly_growth` (services.py lines 764-876).
The scope is the list of in-scope portfolio ids; `month_start` is the first
calendar day of the current month.  The Python falsy test
`if not current_aum or current_aum == 0` collapses to the `none`/zero cases
below; the surrounding `try`/`except` returns `None` on any exception, and the
embedded computation is total, so the function never raises. -/
def calculate_monthly_growth (portfolio_ids : List ℕ)
    (snapshots : List PortfolioSnapshot) (month_start : ℤ) : Option ℚ :=
  if portfolio_ids = [] then none
  else
    match sum_values (current_aum_rows portfolio_ids snapshots) with
    | none => none
    | some current_aum =>
      if current_aum = 0 then none
      else
        match sum_values (month_start_aum_rows portfolio_ids snapshots month_start) with
        | none => none
        | some start_aum =>
          if start_aum = 0 then none
          else some (round4 (current_aum / start_aum - 1))

/-- A date-indexed daily series (close prices, dividends, or cumulative
values): list of (date, value) pairs, as returned by the market-data
gateway. -/
abbrev PriceSeries := List (ℤ × ℚ)

/-- `schemas.PortfolioComposition`: a (ticker, weight) pair. -/
structure PortfolioComposition where
  ticker : String
  weight : ℚ
deriving DecidableEq

/-- `schemas.BacktestRequest`. -/
structure BacktestRequest where
  composition : List PortfolioComposition
  benchmarks : List String
  period : String
deriving DecidableEq

/-- `PortfolioBacktestService.period_mapping` keys (services.py lines
1554-1566). -/
def period_mapping : List String :=
  ["1d", "5d", "1mo", "3mo", "6mo", "1y", "2y", "5y", "10y", "ytd", "max"]

/-- The serialized form a cache entry holds: the value list and the date list,
exactly the two JSON fields (`prices`/`dividends` and `dates`) written by the
cache layer.  Dates are serialized with `"%Y-%m-%d"` and parsed back by
`pd.to_datetime`; on calendar dates this round-trips, so the model keeps the
date itself. -/
structure CachedSeries where
  values : List ℚ
  dates : List ℤ
deriving DecidableEq

/-- `PortfolioBacktestService._generate_cache_key` (services.py lines
1697-1703): the key is a SHA-256 digest of `"{data_type}:{ticker}:{period}"`;
the digest is injective in intent, so the model keys the cache by the
underlying string. -/
def generate_cache_key (ticker period data_type : String) : String :=
  data_type ++ ":" ++ ticker ++ ":" ++ period

/-- Serialization performed before a cache write (services.py lines
1746-1749): `prices = series.values.tolist()`, `dates =
series.index.strftime("%Y-%m-%d").tolist()`. -/
def serialize_series (s : PriceSeries) : CachedSeries :=
  ⟨s.map Prod.snd, s.map Prod.fst⟩

/-- Deserialization performed on a cache hit (services.py lines 1719-1723):
`pd.Series(data_dict["prices"], index=pd.to_datetime(data_dict["dates"]))`
pairs the parsed dates with the values again. -/
def deserialize_series (c : CachedSeries) : PriceSeries :=
  c.dates.zip c.values

/-- The Redis cache plus a count of yfinance network calls made so far.
New entries are consed in front and shadow older ones, like `SETEX`. -/
structure FetchState where
  cache : List (String × CachedSeries)
  netCalls : ℕ
deriving DecidableEq

/-- `redis_client.get`: first binding of the key, `none` on a miss. -/
def cache_get (cache : List (String × CachedSeries)) (key : String) :
    Option CachedSeries :=
  List.lookup key cache

/-- Apply the cache writes of one task to a cache (each write is a `SETEX`). -/
def apply_writes (cache : List (String × CachedSeries))
    (writes : List (String × CachedSeries)) : List (String × CachedSeries) :=
  writes.foldl (fun c w => w :: c) cache

/-- The external world a backtest runs against: `net` is
`yf.download(ticker, period=...)["Close"]` (`none` models a raised download
error or unusable response), `divnet` is `yf.Ticker(ticker).dividends`, and
`now` is `datetime.now()` used for dividend period filtering. -/
structure BacktestEnv where
  net : String → String → Option PriceSeries
  divnet : String → Except String PriceSeries
  now : ℤ

/-- `fetch_ticker_data` inside
`PortfolioBacktestService._download_historical_data_cached` (services.py lines
1710-1760), one concurrent task: try the cache, else fetch from yfinance,
raise on empty data, else cache the result (24h TTL) and return it.
The result is (series or error, cache writes, network calls made). -/
def fetch_ticker_data (net : String → String → Option PriceSeries)
    (period ticker : String) (cache : List (String × CachedSeries)) :
    Except String PriceSeries × List (String × CachedSeries) × ℕ :=
  let key := generate_cache_key ticker period "prices"
  match cache_get cache key with
  | some c => (.ok (deserialize_series c), [], 0)
  | none =>
    match net ticker period with
    | none => (.error ("Failed to retrieve data for " ++ ticker), [], 1)
    | some data =>
      if data = [] then
        (.error ("Failed to retrieve data for " ++ ticker ++
                 ": No data available for " ++ ticker), [], 1)
      else
        (.ok data, [(key, serialize_series data)], 1)

/-- `pd.Series.find`-style lookup of a date in a series. -/
def seriesLookup (s : PriceSeries) (d : ℤ) : Option ℚ :=
  (s.find? (fun p => p.1 == d)).map Prod.snd

/-- Stable insertion into a key-sorted list (an element is placed after the
existing elements with an equal or smaller key). -/
def insertSorted {α : Type} (key : α → ℤ) (x : α) : List α → List α
  | [] => [x]
  | y :: ys => if key y ≤ key x then y :: insertSorted key x ys else x :: y :: ys

/-- Stable ascending sort by an integer key (the model of pandas
`sort_index()`). -/
def sortByKey {α : Type} (key : α → ℤ) : List α → List α
  | [] => []
  | x :: xs => insertSorted key x (sortByKey key xs)

/-- The index `pd.DataFrame(data_dict)` aligns on, after the explicit
`sort_index()` (services.py lines 1766-1780): the sorted union of all the
fetched series' dates. -/
def sortedUnionDates (results : List (String × PriceSeries)) : List ℤ :=
  sortByKey (fun d => d) ((results.map (fun r => r.2.map Prod.fst)).flatten.dedup)

/-- The aligned table before `dropna()`: one row per date of the union index,
with `none` where a ticker has no observation at that date (pandas `NaN`). -/
def combined_rows (results : List (String × PriceSeries)) :
    List (ℤ × List (Option ℚ)) :=
  (sortedUnionDates results).map
    (fun d => (d, results.map (fun r => seriesLookup r.2 d)))

/-- `DataFrame.dropna()`: keep exactly the rows in which every column has a
value (series values themselves are never NaN in the model). -/
def dropna_rows (rows : List (ℤ × List (Option ℚ))) : List (ℤ × List ℚ) :=
  rows.filterMap (fun row =>
    if row.2.all Option.isSome then some (row.1, row.2.reduceOption) else none)

/-- The combined historical-data table handed to the return-series
computation: an index flag mirroring `isinstance(index, pd.DatetimeIndex)`,
the index values, and the named columns (column-major, aligned with the
index). -/
structure HistFrame where
  dtindex : Bool
  index : List ℤ
  columns : List (String × List ℚ)
deriving DecidableEq

/-- Build the `combined_df.dropna()` frame returned by
`_download_historical_data_cached` from the per-ticker fetch results: by
construction its index is a sorted `DatetimeIndex`. -/
def build_hist_frame (results : List (String × PriceSeries)) : HistFrame :=
  let rows := dropna_rows (combined_rows results)
  ⟨true, rows.map Prod.fst,
    results.enum.map (fun p => (p.2.1, rows.map (fun row => row.2.getD p.1 0)))⟩

/-- Gather semantics of the price wave: every task's outcome is collected in
ticker order, and any single task's failure fails the wave. -/
def collect_results :
    List (String × (Except String PriceSeries × List (String × CachedSeries) × ℕ)) →
    Except String (List (String × PriceSeries))
  | [] => .ok []
  | (t, out) :: rest =>
    match out.1 with
    | .error e => .error e
    | .ok s => (collect_results rest).map (fun l => (t, s) :: l)

/-- `PortfolioBacktestService._download_historical_data_cached` (services.py
lines 1705-1782): one concurrent task per ticker (each task reads the cache
as of the start of the wave), `asyncio.gather` fails the wave on any task
failure, and the gathered series are combined into one aligned, date-sorted
table from which rows with any missing value are dropped. -/
def download_historical_data_cached (net : String → String → Option PriceSeries)
    (period : String) (tickers : List String) (fs : FetchState) :
    Except String HistFrame × FetchState :=
  let outs := tickers.map (fun t => (t, fetch_ticker_data net period t fs.cache))
  let fs' : FetchState :=
    ⟨outs.foldl (fun c o => apply_writes c o.2.2.1) fs.cache,
     fs.netCalls + (outs.map (fun o => o.2.2.2)).sum⟩
  match collect_results outs with
  | .error e => (.error e, fs')
  | .ok results => (.ok (build_hist_frame results), fs')

/-- The day counts used to window dividends per period (services.py lines
1817-1824); periods outside this table are not filtered. -/
def period_days (period : String) : Option ℤ :=
  List.lookup period
    [("1mo", 30), ("3mo", 90), ("6mo", 180), ("1y", 365), ("2y", 730), ("5y", 1825)]

/-- `fetch_dividend_data` inside
`PortfolioBacktestService._download_dividend_data_concurrent` (services.py
lines 1789-1853), one concurrent task: try the cache (an empty cached
dividend list stands for an empty series), else fetch the full dividend
history; a fetch failure is caught and yields an empty series; otherwise the
series is windowed to the period and cached (also when empty).
The result is ((ticker, series), cache writes, network calls made). -/
def fetch_dividend_data (env : BacktestEnv) (period ticker : String)
    (cache : List (String × CachedSeries)) :
    (String × PriceSeries) × List (String × CachedSeries) × ℕ :=
  let key := generate_cache_key ticker period "dividends"
  match cache_get cache key with
  | some c =>
    if c.values = [] then ((ticker, []), [], 0)
    else ((ticker, deserialize_series c), [], 0)
  | none =>
    match env.divnet ticker with
    | .error _ => ((ticker, []), [], 1)
    | .ok dividends =>
      let windowed :=
        if dividends = [] then dividends
        else
          match period_days period with
          | some days => dividends.filter (fun p => decide (env.now - days ≤ p.1))
          | none => dividends
      ((ticker, windowed), [(key, serialize_series windowed)], 1)

/-- `PortfolioBacktestService._download_dividend_data_concurrent` (services.py
lines 1784-1859): one concurrent task per ticker, each reading the cache as of
the start of the wave; the wave never fails, because every task catches its
own fetch failure. -/
def download_dividend_data_concurrent (env : BacktestEnv) (period : String)
    (tickers : List String) (fs : FetchState) :
    List (String × PriceSeries) × FetchState :=
  let outs := tickers.map (fun t => fetch_dividend_data env period t fs.cache)
  (outs.map (fun o => o.1),
   ⟨outs.foldl (fun c o => apply_writes c o.2.1) fs.cache,
    fs.netCalls + (outs.map (fun o => o.2.2)).sum⟩)

/-- `Series.pct_change().fillna(0)` (running accumulator form): the first
observation's return is 0, afterwards simple percentage change between
consecutive observations. -/
def pctChangeAux {α : Type} [Field α] (prev : α) : List α → List α
  | [] => []
  | x :: xs => (x / prev - 1) :: pctChangeAux x xs

/-- `Series.pct_change().fillna(0)` on a value list. -/
def pctChange {α : Type} [Field α] : List α → List α
  | [] => []
  | x :: xs => (0 : α) :: pctChangeAux x xs

/-- `Series.pct_change().dropna()`: like `pctChange` but the leading NaN is
dropped instead of filled with 0 (used on benchmark cumulative series inside
the metrics computation, services.py line 1985). -/
def pctChangeDropFirst {α : Type} [Field α] : List α → List α
  | [] => []
  | x :: xs => pctChangeAux x xs

/-- `(1 + daily_returns).cumprod()` with running accumulator `acc`. -/
def cumprodAux {α : Type} [Field α] (acc : α) : List α → List α
  | [] => []
  | r :: rs => (acc * (1 + r)) :: cumprodAux (acc * (1 + r)) rs

/-- `PortfolioBacktestService._calculate_cumulative_returns` (services.py
lines 1903-1907): `(1 + daily_returns).cumprod() * start_value`. -/
def calculate_cumulative_returns {α : Type} [Field α] (daily_returns : List α)
    (start_value : α) : List α :=
  (cumprodAux 1 daily_returns).map (fun x => x * start_value)

/-- pandas `Index.is_monotonic_increasing` (non-strict). -/
def isMonotonicIncreasing : List ℤ → Bool
  | [] => true
  | [_] => true
  | a :: b :: rest => decide (a ≤ b) && isMonotonicIncreasing (b :: rest)

/-- `hist_data.sort_index()`: stable-sort the rows of a frame by index value,
keeping column names. -/
def sortFrame (hist : HistFrame) : HistFrame :=
  let rows := (List.range hist.index.length).map
    (fun i => (hist.index.getD i 0, hist.columns.map (fun c => c.2.getD i 0)))
  let sortedRows := sortByKey (fun row => row.1) rows
  ⟨hist.dtindex, sortedRows.map Prod.fst,
    hist.columns.enum.map
      (fun p => (p.2.1, sortedRows.map (fun row => row.2.getD p.1 0)))⟩

/-- Column lookup by name (`hist_data[ticker]`); total because it is only
reached after the missing-ticker check. -/
def getColumn (hist : HistFrame) (name : String) : List ℚ :=
  ((hist.columns.find? (fun c => c.1 == name)).map Prod.snd).getD []

/-- The fold `portfolio_daily_returns += asset_returns[ticker] * weights[ticker]`
(services.py lines 1896-1899), started from a zero series over the index. -/
def weighted_daily_returns (weights : List (String × ℚ))
    (asset_returns : List (String × List ℚ)) (n : ℕ) : List ℚ :=
  asset_returns.foldl
    (fun acc col =>
      match List.lookup col.1 weights with
      | some w => List.zipWith (fun a r => a + r * w) acc col.2
      | none => acc)
    (List.replicate n 0)

/-- `PortfolioBacktestService._calculate_portfolio_daily_returns` (services.py
lines 1861-1901).  Note the index checks: an empty table and a non-date index
raise, but a non-chronological index is sorted (with a log line), not
raised. -/
def calculate_portfolio_daily_returns (hist : HistFrame)
    (composition : List PortfolioComposition) (tickers : List String) :
    Except String (List ℚ) :=
  if hist.index = [] ∨ hist.columns = [] then .error "Historical data is empty"
  else if hist.dtindex = false then
    .error "Historical data must have DatetimeIndex for backtesting calculations"
  else
    let hist := if isMonotonicIncreasing hist.index then hist else sortFrame hist
    let weights := composition.map (fun c => (c.ticker, c.weight))
    let missing := tickers.filter (fun t => !((hist.columns.map Prod.fst).contains t))
    if missing ≠ [] then
      .error ("Missing price data for tickers: " ++ toString missing)
    else
      let asset_returns := tickers.map (fun t => (t, pctChange (getColumn hist t)))
      .ok (weighted_daily_returns weights asset_returns hist.index.length)

/-- `PortfolioBacktestService._calculate_benchmark_returns` (services.py lines
1909-1921): per benchmark present in the table, the 100-based cumulative
series over that column's daily returns, paired with the table index. -/
def calculate_benchmark_returns (hist : HistFrame) (benchmarks : List String) :
    List (String × PriceSeries) :=
  benchmarks.filterMap (fun b =>
    if (hist.columns.map Prod.fst).contains b then
      some (b, hist.index.zip (calculate_cumulative_returns (pctChange (getColumn hist b)) 100))
    else none)

/-- `schemas.BacktestDataPoint`; dividend events are (ticker, amount) pairs. -/
structure BacktestDataPoint where
  date : ℤ
  portfolio_value : ℚ
  benchmark_values : List (String × ℚ)
  dividend_events : List (String × ℚ)
deriving DecidableEq

/-- `PortfolioBacktestService._generate_data_points` (services.py lines
2001-2044): one entry per index date with the portfolio cumulative value, the
benchmark cumulative values present at that date, and the first matching
dividend per ticker whose (calendar) date equals the index date. -/
def generate_data_points (dates : List ℤ) (portfolio_cumulative : PriceSeries)
    (benchmark_returns : List (String × PriceSeries))
    (dividend_data : List (String × PriceSeries)) : List BacktestDataPoint :=
  dates.map (fun d =>
    { date := d,
      portfolio_value := (seriesLookup portfolio_cumulative d).getD 0,
      benchmark_values := benchmark_returns.filterMap
        (fun b => (seriesLookup b.2 d).map (fun v => (b.1, v))),
      dividend_events := dividend_data.filterMap
        (fun p => (p.2.find? (fun q => q.1 == d)).map (fun q => (p.1, q.2))) })

/-- `xs.foldl min x` packaged for nonempty lists: pandas `Series.min()`
(0 is dead code on the empty list, which the call sites exclude). -/
def listMin : List ℝ → ℝ
  | [] => 0
  | x :: xs => xs.foldl min x

/-- pandas `Series.max()` analogue of `listMin`. -/
def listMax : List ℝ → ℝ
  | [] => 0
  | x :: xs => xs.foldl max x

/-- `Series.expanding().max()` with running accumulator. -/
def runningMaxAux (m : ℝ) : List ℝ → List ℝ
  | [] => []
  | x :: xs => max m x :: runningMaxAux (max m x) xs

/-- `Series.expanding().max()` (services.py line 1962). -/
def runningMax : List ℝ → List ℝ
  | [] => []
  | x :: xs => x :: runningMaxAux x xs

/-- `Series.mean()`. -/
noncomputable def seriesMean (l : List ℝ) : ℝ := l.sum / l.length

/-- `Series.std()`: pandas uses the sample variance (ddof = 1). -/
noncomputable def sampleVariance (l : List ℝ) : ℝ :=
  ((l.map (fun x => (x - seriesMean l) ^ (2 : ℕ))).sum) / ((l.length : ℝ) - 1)

/-- `Series.std()` itself. -/
noncomputable def sampleStd (l : List ℝ) : ℝ := Real.sqrt (sampleVariance l)

/-- The performance-metrics record built by
`_calculate_performance_metrics_corrected`; the dynamic per-benchmark dict
keys become a list of (name, total_return, vs, alpha) rows. -/
structure PerformanceMetrics where
  total_return : ℝ
  annualized_return : ℝ
  annualized_volatility : ℝ
  sharpe_ratio : ℝ
  max_drawdown : ℝ
  start_value : ℝ
  end_value : ℝ
  trading_days : ℕ
  risk_free_rate_assumption : ℝ
  benchmark_rows : List (String × ℝ × ℝ × ℝ)

/-- `PortfolioBacktestService._calculate_performance_metrics_corrected`
(services.py lines 1923-1999).  `daily_returns` is the portfolio daily-return
series (index-free: no formula reads the dates); `benchmark_returns` are the
100-based benchmark cumulative value lists.  `x ^ y` on reals is `Real.rpow`,
matching Python `**` on the positive bases that occur. -/
noncomputable def calculate_performance_metrics_corrected
    (daily_returns : List ℝ) (benchmark_returns : List (String × List ℝ)) :
    Except String PerformanceMetrics :=
  if daily_returns.length < 2 then
    .error "Insufficient data points for performance calculation"
  else
    let total_return := (daily_returns.map (fun r => 1 + r)).prod - 1
    let trading_days := daily_returns.length
    let years : ℝ := (trading_days : ℝ) / 252
    let annualized_return :=
      if 0 < years then (1 + total_return) ^ (1 / years) - 1 else 0
    let daily_volatility := sampleStd daily_returns
    let annualized_volatility := daily_volatility * Real.sqrt 252
    let risk_free_rate_daily : ℝ := 0.02 / 252
    let excess_returns := daily_returns.map (fun r => r - risk_free_rate_daily)
    let sharpe_ratio :=
      if 0 < annualized_volatility then
        seriesMean excess_returns * 252 / annualized_volatility
      else 0
    let cumulative_returns := calculate_cumulative_returns daily_returns 1
    let running_max := runningMax cumulative_returns
    let drawdowns := List.zipWith (fun c m => (c - m) / m) cumulative_returns running_max
    let max_drawdown := listMin drawdowns
    let start_value : ℝ := 100
    let end_value := start_value * (1 + total_return)
    .ok
      { total_return := total_return,
        annualized_return := annualized_return,
        annualized_volatility := annualized_volatility,
        sharpe_ratio := sharpe_ratio,
        max_drawdown := max_drawdown,
        start_value := start_value,
        end_value := end_value,
        trading_days := trading_days,
        risk_free_rate_assumption := 0.02,
        benchmark_rows := benchmark_returns.filterMap (fun p =>
          if 1 < p.2.length then
            let bench_daily_returns := pctChangeDropFirst p.2
            if 0 < bench_daily_returns.length then
              let bench_total_return := (bench_daily_returns.map (fun r => 1 + r)).prod - 1
              some (p.1, bench_total_return, total_return - bench_total_return,
                annualized_return - ((1 + bench_total_return) ^ (1 / years) - 1))
            else none
          else none) }

/-- Spec-side formula (section 4.4): the 1.0-based cumulative value after
observation `i`, the running product of `(1 + daily_return)` over the first
`i + 1` observations. -/
noncomputable def spec_cumulative (rs : List ℝ) (i : ℕ) : ℝ :=
  ((rs.take (i + 1)).map (fun r => 1 + r)).prod

/-- Spec-side formula: `running_max_of_cumulative` at position `i`, the
maximum of the cumulative values up to and including `i`. -/
noncomputable def spec_running_peak (rs : List ℝ) (i : ℕ) : ℝ :=
  listMax ((List.range (i + 1)).map (spec_cumulative rs))

/-- Spec-side formula: the per-position drawdowns
`(cumulative - running_max_of_cumulative) / running_max_of_cumulative`. -/
noncomputable def spec_drawdowns (rs : List ℝ) : List ℝ :=
  (List.range rs.length).map
    (fun i => (spec_cumulative rs i - spec_running_peak rs i) / spec_running_peak rs i)

/-- Spec-side formula: `max_drawdown` is the minimum drawdown. -/
noncomputable def spec_max_drawdown (rs : List ℝ) : ℝ := listMin (spec_drawdowns rs)

/-- The spec's exact formulas for the performance-metrics record (sections
4.4 and 8), stated of a metrics record `m` for the daily-return series `rs`:
total return is the product formula; trading days is the observation count;
annualized return is `(1 + total_return) ^ (1 / years) - 1` with
`years = trading_days / 252` (the `years ≤ 0` clause is vacuous for any
series of length ≥ 2); annualized volatility is sample stddev times `√252`;
the Sharpe ratio is the annualized mean excess return over the volatility
(0 if the volatility is 0) at the surfaced 2% annual risk-free assumption;
and max drawdown is the minimum relative drawdown of the 1.0-based
cumulative series, a value that is ≤ 0. -/
def SpecMetrics (rs : List ℝ) (m : PerformanceMetrics) : Prop :=
  m.total_return = (rs.map (fun r => 1 + r)).prod - 1 ∧
  m.trading_days = rs.length ∧
  m.annualized_return = (1 + m.total_return) ^ (1 / ((rs.length : ℝ) / 252)) - 1 ∧
  m.annualized_volatility = sampleStd rs * Real.sqrt 252 ∧
  m.sharpe_ratio = (if m.annualized_volatility = 0 then 0
    else seriesMean (rs.map (fun r => r - 0.02 / 252)) * 252 / m.annualized_volatility) ∧
  m.risk_free_rate_assumption = 0.02 ∧
  m.max_drawdown = spec_max_drawdown rs ∧
  m.max_drawdown ≤ 0

/-- `schemas.BacktestResponse` (start/end dates are the first and last index
dates). -/
structure BacktestResponse where
  start_date : ℤ
  end_date : ℤ
  portfolio_composition : List PortfolioComposition
  benchmarks : List String
  data_points : List BacktestDataPoint
  performance_metrics : PerformanceMetrics

/-- The validation prefix of `PortfolioBacktestService.perform_backtest`
(services.py lines 1623-1642), run before any cache or network access:
period membership, nonempty ticker set, and the weight-sum band check whose
error message names the actual sum. -/
def backtest_validate (req : BacktestRequest) : Except String (List String × ℚ) :=
  if ¬ (req.period ∈ period_mapping) then
    .error ("Invalid period: " ++ req.period ++ ". Valid options: " ++
            toString period_mapping)
  else
    let all_tickers := req.composition.map (fun c => c.ticker) ++ req.benchmarks
    if all_tickers = [] then .error "No tickers provided for backtesting"
    else
      let total_weight := (req.composition.map (fun c => c.weight)).sum
      if (1/1000 : ℚ) < |total_weight - 1| then
        .error ("Portfolio weights must sum to 1.0, got " ++ toString total_weight)
      else .ok (all_tickers, total_weight)

/-- The `try` body of `PortfolioBacktestService.perform_backtest` (services.py
lines 1623-1691): validate, download and align prices, reject an empty table,
download dividends, compute daily returns, cumulative series, benchmark
series, chart data points and performance metrics. -/
noncomputable def perform_backtest_body (env : BacktestEnv) (req : BacktestRequest)
    (fs : FetchState) : Except String BacktestResponse × FetchState :=
  match backtest_validate req with
  | .error e => (.error e, fs)
  | .ok (all_tickers, _) =>
    match download_historical_data_cached env.net req.period all_tickers fs with
    | (.error e, fs') => (.error e, fs')
    | (.ok hist, fs') =>
      if hist.index = [] ∨ hist.columns = [] then
        (.error "No historical data available for the selected tickers and period", fs')
      else
        let divOut := download_dividend_data_concurrent env req.period all_tickers fs'
        match calculate_portfolio_daily_returns hist req.composition
            (req.composition.map (fun c => c.ticker)) with
        | .error e => (.error e, divOut.2)
        | .ok daily =>
          let portfolio_cumulative := hist.index.zip (calculate_cumulative_returns daily 100)
          let benchmark_returns := calculate_benchmark_returns hist req.benchmarks
          let data_points := generate_data_points hist.index portfolio_cumulative
            benchmark_returns divOut.1
          match calculate_performance_metrics_corrected (daily.map (fun q => (q : ℝ)))
              (benchmark_returns.map (fun b => (b.1, b.2.map (fun p => ((p.2 : ℚ) : ℝ))))) with
          | .error e => (.error e, divOut.2)
          | .ok metrics =>
            (.ok { start_date := hist.index.headD 0,
                   end_date := (hist.index.getLast?).getD 0,
                   portfolio_composition := req.composition,
                   benchmarks := req.benchmarks,
                   data_points := data_points,
                   performance_metrics := metrics }, divOut.2)

/-- `PortfolioBacktestService.perform_backtest` (services.py lines 1610-1695):
the surrounding `except` re-raises any failure as
`ValueError("Failed to perform backtest: ...")`. -/
noncomputable def perform_backtest (env : BacktestEnv) (req : BacktestRequest)
    (fs : FetchState) : Except String BacktestResponse × FetchState :=
  match perform_backtest_body env req fs with
  | (.error e, fs') => (.error ("Failed to perform backtest: " ++ e), fs')
  | (.ok r, fs') => (.ok r, fs')

/-! ## Helper lemmas -/

/-- The valuation loop on all-priceable positions accumulates the two sums and
the count. -/
theorem valuate_positions_ok (prices : String → Except String ℚ) (pr : Position → ℚ)
    (ps : List Position) :
    ∀ (v c : ℚ) (k : ℕ),
      (∀ pos ∈ ps, prices pos.ticker = Except.ok (pr pos)) →
      valuate_positions prices ps v c k =
        Except.ok (v + (ps.map (fun pos => pos.quantity * pr pos)).sum,
          c + (ps.map (fun pos => pos.quantity * pos.purchase_price)).sum,
          k + ps.length) := by
  induction ps with
  | nil => intro v c k _; simp [valuate_positions]
  | cons pos rest ih =>
    intro v c k h
    have hhead : prices pos.ticker = Except.ok (pr pos) := h pos (by simp)
    have htail : ∀ q ∈ rest, prices q.ticker = Except.ok (pr q) :=
      fun q hq => h q (by simp [hq])
    simp only [valuate_positions, hhead]
    rw [ih _ _ _ htail]
    simp only [List.map_cons, List.sum_cons, List.length_cons, Except.ok.injEq,
      Prod.mk.injEq]
    refine ⟨by ring, by ring, by omega⟩

/-- The valuation loop fails as soon as any position's price fetch fails. -/
theorem valuate_positions_error (prices : String → Except String ℚ)
    (ps : List Position) :
    ∀ (v c : ℚ) (k : ℕ),
      (∃ pos ∈ ps, ∃ e, prices pos.ticker = Except.error e) →
      ∃ msg, valuate_positions prices ps v c k = Except.error msg := by
  induction ps with
  | nil =>
    rintro v c k ⟨pos, hmem, _⟩
    cases hmem
  | cons pos rest ih =>
    rintro v c k ⟨q, hq, e, he⟩
    rcases List.mem_cons.mp hq with rfl | htail
    · exact ⟨"Failed to valuate position " ++ q.ticker ++ ": " ++ e,
        by simp [valuate_positions, he]⟩
    · cases hp : prices pos.ticker with
      | error e' =>
        exact ⟨"Failed to valuate position " ++ pos.ticker ++ ": " ++ e',
          by simp [valuate_positions, hp]⟩
      | ok price =>
        obtain ⟨msg, hmsg⟩ := ih (v + pos.quantity * price)
          (c + pos.quantity * pos.purchase_price) (k + 1) ⟨q, htail, e, he⟩
        exact ⟨msg, by simp [valuate_positions, hp, hmsg]⟩

/-- Monthly growth degrades to `none` whenever the start-of-month aggregate is
`NULL`. -/
theorem monthly_growth_none_of_start_none (portfolio_ids : List ℕ)
    (snapshots : List PortfolioSnapshot) (month_start : ℤ)
    (h : sum_values (month_start_aum_rows portfolio_ids snapshots month_start) = none) :
    calculate_monthly_growth portfolio_ids snapshots month_start = none := by
  unfold calculate_monthly_growth
  split
  · rfl
  · rw [h]
    cases hcur : sum_values (current_aum_rows portfolio_ids snapshots) with
    | none => rfl
    | some ca =>
      by_cases hz : ca = 0
      · simp [hz]
      · simp [hz]

/-- Insertion keeps exactly the old elements plus the new one. -/
theorem mem_insertSorted {α : Type} (key : α → ℤ) (x : α) (l : List α) (a : α) :
    a ∈ insertSorted key x l ↔ a = x ∨ a ∈ l := by
  induction l with
  | nil => simp [insertSorted]
  | cons y ys ih =>
    simp only [insertSorted]
    split
    all_goals simp only [List.mem_cons, ih]
    all_goals tauto

/-- Sorting by key keeps exactly the elements. -/
theorem mem_sortByKey {α : Type} (key : α → ℤ) (l : List α) (a : α) :
    a ∈ sortByKey key l ↔ a ∈ l := by
  induction l with
  | nil => simp [sortByKey]
  | cons x xs ih => simp [sortByKey, mem_insertSorted, ih]

/-- A series has a value at a date exactly when the date is in its index. -/
theorem seriesLookup_isSome (s : PriceSeries) (d : ℤ) :
    (seriesLookup s d).isSome = true ↔ d ∈ s.map Prod.fst := by
  rw [seriesLookup]
  cases hf : s.find? (fun p => p.1 == d) with
  | none =>
    simp only [Option.map_none', Option.isSome_none, Bool.false_eq_true, false_iff]
    intro hd
    obtain ⟨p, hp, hfst⟩ := List.mem_map.mp hd
    have hsome : (s.find? (fun p => p.1 == d)).isSome = true :=
      List.find?_isSome.mpr ⟨p, hp, by simp [hfst]⟩
    rw [hf] at hsome
    cases hsome
  | some q =>
    simp only [Option.map_some', Option.isSome_some, true_iff]
    have hq := List.find?_some hf
    have hqs := List.mem_of_find?_eq_some hf
    exact List.mem_map.mpr ⟨q, hqs, by simpa using hq⟩

/-- `sort_index()` keeps the column names. -/
theorem sortFrame_columns_fst (hist : HistFrame) :
    (sortFrame hist).columns.map Prod.fst = hist.columns.map Prod.fst := by
  simp only [sortFrame, List.map_map]
  have h1 : (Prod.fst ∘ fun p : ℕ × String × List ℚ =>
      (p.2.1, (sortByKey (fun row => row.1) ((List.range hist.index.length).map
        (fun i => (hist.index.getD i 0, hist.columns.map (fun c => c.2.getD i 0))))).map
        (fun row => row.2.getD p.1 0))) = fun p => p.2.1 := rfl
  rw [h1]
  have h2 : (fun p : ℕ × String × List ℚ => p.2.1) =
      (Prod.fst ∘ Prod.snd : ℕ × String × List ℚ → String) := rfl
  rw [h2, ← List.map_map, List.enum_map_snd]

/-- Every dividend task labels its result with its own ticker. -/
theorem fetch_dividend_data_fst (env : BacktestEnv) (period ticker : String)
    (cache : List (String × CachedSeries)) :
    (fetch_dividend_data env period ticker cache).1.1 = ticker := by
  cases hc : cache_get cache (generate_cache_key ticker period "dividends") with
  | none =>
    cases hd : env.divnet ticker with
    | error e => simp [fetch_dividend_data, hc, hd]
    | ok dv => simp [fetch_dividend_data, hc, hd]
  | some c =>
    by_cases hv : c.values = [] <;> simp [fetch_dividend_data, hc, hv]

/-- A dividend task whose fetch raises returns the empty series (the failure
is caught inside the task). -/
theorem fetch_dividend_data_of_error (env : BacktestEnv) (period ticker : String)
    (cache : List (String × CachedSeries)) (e : String)
    (hmiss : cache_get cache (generate_cache_key ticker period "dividends") = none)
    (herr : env.divnet ticker = Except.error e) :
    fetch_dividend_data env period ticker cache = ((ticker, []), [], 1) := by
  simp [fetch_dividend_data, hmiss, herr]

/-- `cumprodAux` preserves length. -/
theorem cumprodAux_length {α : Type} [Field α] (rs : List α) :
    ∀ a : α, (cumprodAux a rs).length = rs.length := by
  induction rs with
  | nil => intro a; rfl
  | cons r rest ih => intro a; simp [cumprodAux, ih]

/-- Positional value of the cumulative-product series: the accumulator times
the prefix product of `(1 + r)`. -/
theorem cumprodAux_get {α : Type} [Field α] (rs : List α) :
    ∀ (a : α) (i : ℕ) (h' : i < (cumprodAux a rs).length),
      (cumprodAux a rs).get ⟨i, h'⟩ =
        a * ((rs.take (i + 1)).map (fun r => 1 + r)).prod := by
  induction rs with
  | nil => intro a i h'; cases h'
  | cons r rest ih =>
    intro a i h'
    cases i with
    | zero => simp [cumprodAux]
    | succ j =>
      have hlen : j < (cumprodAux (a * (1 + r)) rest).length := by
        have := h'
        simpa [cumprodAux] using this
      have hstep : (cumprodAux a (r :: rest)).get ⟨j + 1, h'⟩ =
          (cumprodAux (a * (1 + r)) rest).get ⟨j, hlen⟩ := rfl
      rw [hstep, ih (a * (1 + r)) j hlen]
      simp only [List.take_succ_cons, List.map_cons, List.prod_cons]
      ring

/-- `foldl max` commutes with an outer `max` on the accumulator. -/
theorem foldl_max_push (l : List ℝ) :
    ∀ a b : ℝ, l.foldl max (max a b) = max a (l.foldl max b) := by
  induction l with
  | nil => intro a b; rfl
  | cons c l ih =>
    intro a b
    simp only [List.foldl_cons]
    rw [max_assoc, ih]

/-- `listMax` of a cons with a nonempty tail. -/
theorem listMax_cons (x : ℝ) (t : List ℝ) (ht : t ≠ []) :
    listMax (x :: t) = max x (listMax t) := by
  cases t with
  | nil => exact absurd rfl ht
  | cons y t' =>
    show (y :: t').foldl max x = max x (t'.foldl max y)
    simp only [List.foldl_cons]
    exact foldl_max_push t' x y

/-- `runningMaxAux` preserves length. -/
theorem runningMaxAux_length (l : List ℝ) :
    ∀ m : ℝ, (runningMaxAux m l).length = l.length := by
  induction l with
  | nil => intro m; rfl
  | cons x xs ih => intro m; simp [runningMaxAux, ih]

/-- `runningMax` preserves length. -/
theorem runningMax_length (l : List ℝ) : (runningMax l).length = l.length := by
  cases l with
  | nil => rfl
  | cons x xs => simp [runningMax, runningMaxAux_length]

/-- Positional value of `runningMaxAux`: the accumulator joined with the
prefix maximum. -/
theorem runningMaxAux_get (l : List ℝ) :
    ∀ (m : ℝ) (i : ℕ) (h' : i < (runningMaxAux m l).length),
      (runningMaxAux m l).get ⟨i, h'⟩ = max m (listMax (l.take (i + 1))) := by
  induction l with
  | nil => intro m i h'; cases h'
  | cons x xs ih =>
    intro m i h'
    cases i with
    | zero =>
      show max m x = max m (listMax ((x :: xs).take 1))
      simp [listMax]
    | succ j =>
      have hlen : j < (runningMaxAux (max m x) xs).length := by
        have := h'
        simpa [runningMaxAux] using this
      have hstep : (runningMaxAux m (x :: xs)).get ⟨j + 1, h'⟩ =
          (runningMaxAux (max m x) xs).get ⟨j, hlen⟩ := rfl
      have hne : xs.take (j + 1) ≠ [] := by
        have hj : j < xs.length := by rwa [runningMaxAux_length] at hlen
        intro hnil
        have hlen2 := congrArg List.length hnil
        rw [List.length_take] at hlen2
        simp only [List.length_nil] at hlen2
        omega
      rw [hstep, ih (max m x) j hlen]
      simp only [List.take_succ_cons]
      rw [listMax_cons x _ hne, max_assoc]

/-- Positional value of `expanding().max()`: the prefix maximum. -/
theorem runningMax_get (l : List ℝ) (i : ℕ) (h' : i < (runningMax l).length) :
    (runningMax l).get ⟨i, h'⟩ = listMax (l.take (i + 1)) := by
  cases l with
  | nil => cases h'
  | cons x xs =>
    cases i with
    | zero => simp [runningMax, listMax]
    | succ j =>
      have hlen : j < (runningMaxAux x xs).length := by
        have := h'
        simpa [runningMax] using this
      have hstep : (runningMax (x :: xs)).get ⟨j + 1, h'⟩ =
          (runningMaxAux x xs).get ⟨j, hlen⟩ := rfl
      have hne : xs.take (j + 1) ≠ [] := by
        have hj : j < xs.length := by rwa [runningMaxAux_length] at hlen
        intro hnil
        have hlen2 := congrArg List.length hnil
        rw [List.length_take] at hlen2
        simp only [List.length_nil] at hlen2
        omega
      rw [hstep, runningMaxAux_get xs x j hlen, List.take_succ_cons,
        listMax_cons x _ hne]

/-- Multiplying a series by the start value 1 changes nothing. -/
theorem calculate_cumulative_returns_one (rs : List ℝ) :
    calculate_cumulative_returns rs (1 : ℝ) = cumprodAux 1 rs := by
  simp [calculate_cumulative_returns]

/-- The prefix of the code's cumulative series lists the spec's cumulative
values in order. -/
theorem cumprod_take_eq_spec (rs : List ℝ) (i : ℕ) (h : i < rs.length) :
    (cumprodAux (1 : ℝ) rs).take (i + 1) =
      (List.range (i + 1)).map (spec_cumulative rs) := by
  apply List.ext_get
  · simp [cumprodAux_length]
    omega
  · intro j h1 h2
    have hj : j < i + 1 := by
      have := h1
      simp [cumprodAux_length] at this
      omega
    have hj' : j < (cumprodAux (1 : ℝ) rs).length := by
      rw [cumprodAux_length]
      omega
    rw [List.get_take']
    have hget := cumprodAux_get rs 1 j hj'
    simp only [List.get_eq_getElem] at hget ⊢
    rw [hget]
    simp [spec_cumulative, List.getElem_map, List.getElem_range, one_mul]

/-- The code's drawdown list (`expanding().max()` based) equals the spec's
positional drawdown list. -/
theorem drawdowns_eq_spec (rs : List ℝ) :
    List.zipWith (fun c m => (c - m) / m) (cumprodAux 1 rs)
      (runningMax (cumprodAux 1 rs)) = spec_drawdowns rs := by
  apply List.ext_get
  · simp [spec_drawdowns, List.length_zipWith, cumprodAux_length, runningMax_length]
  · intro i h1 h2
    have hi : i < rs.length := by
      have := h1
      simp [List.length_zipWith, cumprodAux_length, runningMax_length] at this
      omega
    have hc : i < (cumprodAux (1 : ℝ) rs).length := by rw [cumprodAux_length]; omega
    have hm : i < (runningMax (cumprodAux (1 : ℝ) rs)).length := by
      rw [runningMax_length, cumprodAux_length]
      omega
    rw [List.get_zipWith]
    have hcg := cumprodAux_get rs 1 i hc
    have hmg := runningMax_get (cumprodAux 1 rs) i hm
    rw [cumprod_take_eq_spec rs i hi] at hmg
    simp only [List.get_eq_getElem] at hcg hmg ⊢
    rw [hcg, hmg]
    simp [spec_drawdowns, spec_running_peak, spec_cumulative, one_mul]

/-- `foldl min` never exceeds its accumulator. -/
theorem foldl_min_le_init (l : List ℝ) : ∀ a : ℝ, l.foldl min a ≤ a := by
  induction l with
  | nil => intro a; exact le_refl a
  | cons x l ih =>
    intro a
    exact le_trans (ih (min a x)) (min_le_left a x)

/-- `foldl min` is below every list element. -/
theorem foldl_min_le_mem (l : List ℝ) :
    ∀ (a b : ℝ), b ∈ l → l.foldl min a ≤ b := by
  induction l with
  | nil => intro a b hb; cases hb
  | cons c l ih =>
    intro a b hb
    rcases List.mem_cons.mp hb with rfl | hl
    · exact le_trans (foldl_min_le_init l (min a b)) (min_le_right a b)
    · exact ih (min a c) b hl

/-- The pandas `Series.min()` is below every element. -/
theorem listMin_le_of_mem (l : List ℝ) (a : ℝ) (ha : a ∈ l) : listMin l ≤ a := by
  cases l with
  | nil => cases ha
  | cons x xs =>
    rcases List.mem_cons.mp ha with rfl | hxs
    · exact foldl_min_le_init xs a
    · exact foldl_min_le_mem xs x a hxs

/-- The first drawdown of a nonempty series is 0, so the minimum drawdown is
never positive. -/
theorem spec_max_drawdown_nonpos (rs : List ℝ) (h : rs ≠ []) :
    spec_max_drawdown rs ≤ 0 := by
  have hn : 0 < rs.length := List.length_pos.mpr h
  have hpeak0 : spec_running_peak rs 0 = spec_cumulative rs 0 := by
    have hr1 : List.range 1 = [0] := rfl
    simp [spec_running_peak, hr1, listMax]
  have h0 : (spec_cumulative rs 0 - spec_running_peak rs 0) / spec_running_peak rs 0
      = 0 := by
    rw [hpeak0, sub_self, zero_div]
  have hmem : (spec_cumulative rs 0 - spec_running_peak rs 0) / spec_running_peak rs 0
      ∈ spec_drawdowns rs :=
    List.mem_map.mpr ⟨0, List.mem_range.mpr hn, rfl⟩
  have := listMin_le_of_mem _ _ hmem
  rw [h0] at this
  exact this

/-! ## Claim theorems -/

/-- C2: with a valid period and a nonempty composition, a weight sum `s` with
`|s - 1| > 0.001` is rejected by the validation prefix with a `ValueError`
naming `s`, and `perform_backtest` returns that error (wrapped by its
`except` clause) for every environment, leaving the fetch state untouched —
so the rejection happens before any cache read or network fetch; a weight sum
within the band passes the validation prefix. -/
theorem perform_backtest_weight_validation (req : BacktestRequest)
    (hper : req.period ∈ period_mapping) (hcomp : req.composition ≠ []) :
    (((1:ℚ)/1000 < |(req.composition.map (fun c => c.weight)).sum - 1| →
      backtest_validate req = Except.error
        ("Portfolio weights must sum to 1.0, got " ++
          toString ((req.composition.map (fun c => c.weight)).sum)) ∧
      ∀ (env : BacktestEnv) (fs : FetchState),
        perform_backtest env req fs =
          (Except.error ("Failed to perform backtest: " ++
            ("Portfolio weights must sum to 1.0, got " ++
              toString ((req.composition.map (fun c => c.weight)).sum))), fs))) ∧
    (|(req.composition.map (fun c => c.weight)).sum - 1| ≤ (1:ℚ)/1000 →
      backtest_validate req = Except.ok
        (req.composition.map (fun c => c.ticker) ++ req.benchmarks,
          (req.composition.map (fun c => c.weight)).sum)) := by
  have hticks : req.composition.map (fun c => c.ticker) ++ req.benchmarks ≠ [] := by
    intro h
    rcases List.append_eq_nil.mp h with ⟨h1, _⟩
    exact hcomp (List.map_eq_nil_iff.mp h1)
  constructor
  · intro hgt
    have hval : backtest_validate req = Except.error
        ("Portfolio weights must sum to 1.0, got " ++
          toString ((req.composition.map (fun c => c.weight)).sum)) := by
      simp only [backtest_validate]
      rw [if_neg (not_not_intro hper), if_neg hticks, if_pos hgt]
    refine ⟨hval, ?_⟩
    intro env fs
    simp only [perform_backtest, perform_backtest_body, hval]
  · intro hle
    simp only [backtest_validate]
    rw [if_neg (not_not_intro hper), if_neg hticks, if_neg (not_lt.mpr hle)]

/-- C2 witness: a single-asset composition with weight 1/2 (sum 1/2, outside
the band) is rejected by the validation prefix with the message naming 1/2. -/
theorem perform_backtest_weight_validation_witness :
    backtest_validate ⟨[⟨"AAPL", (1:ℚ)/2⟩], ["SPY"], "1y"⟩ =
      Except.error ("Portfolio weights must sum to 1.0, got " ++
        toString ((([⟨"AAPL", (1:ℚ)/2⟩] : List PortfolioComposition).map
          (fun c => c.weight)).sum)) := by
  exact ((perform_backtest_weight_validation ⟨[⟨"AAPL", (1:ℚ)/2⟩], ["SPY"], "1y"⟩
    (by simp [period_mapping]) (by simp)).1
    (by simp only [List.map_cons, List.map_nil, List.sum_cons, List.sum_nil]
        rw [show ((1:ℚ)/2 + 0 - 1) = -(1/2) by norm_num, abs_neg,
          abs_of_nonneg (by norm_num : (0:ℚ) ≤ 1/2)]
        norm_num)).1

/-- C7 counterexample: a combined table with a `DatetimeIndex` that is not
chronological (index `[1, 0]`).  The claim says the return-series computation
must raise on a non-chronological index; instead
`_calculate_portfolio_daily_returns` sorts the table (logging
"Historical data sorted chronologically for backtesting") and succeeds. -/
theorem index_order_check_cex :
    isMonotonicIncreasing [1, 0] = false ∧
    (calculate_portfolio_daily_returns ⟨true, [1, 0], [("A", [3, 4])]⟩
      [⟨"A", 1⟩] ["A"]).isOk = true := by
  exact ⟨rfl, rfl⟩

/-- C7 (amended): the computation raises on a non-date (non-`DatetimeIndex`)
index, but a non-chronological date index is sorted chronologically (with a
log line), not raised: on any nonempty table whose tickers are all present,
the computation succeeds whether or not the index is ordered. -/
theorem index_check_amended (hist : HistFrame)
    (composition : List PortfolioComposition) (tickers : List String)
    (hne : hist.index ≠ []) (hcols : hist.columns ≠ []) :
    (hist.dtindex = false →
      calculate_portfolio_daily_returns hist composition tickers =
        Except.error
          "Historical data must have DatetimeIndex for backtesting calculations") ∧
    (hist.dtindex = true →
      (∀ t ∈ tickers, t ∈ hist.columns.map Prod.fst) →
      calculate_portfolio_daily_returns hist composition tickers =
        Except.ok (weighted_daily_returns
          (composition.map (fun c => (c.ticker, c.weight)))
          (tickers.map (fun t => (t, pctChange (getColumn
            (if isMonotonicIncreasing hist.index then hist else sortFrame hist) t))))
          (if isMonotonicIncreasing hist.index then hist
            else sortFrame hist).index.length)) := by
  have hor : ¬ (hist.index = [] ∨ hist.columns = []) := by
    intro h
    rcases h with h | h
    · exact hne h
    · exact hcols h
  constructor
  · intro hdt
    simp only [calculate_portfolio_daily_returns]
    rw [if_neg hor, if_pos (by rw [hdt])]
  · intro hdt hall
    have hmissing : tickers.filter (fun t =>
        !(((if isMonotonicIncreasing hist.index then hist
          else sortFrame hist).columns.map Prod.fst).contains t)) = [] := by
      rw [List.filter_eq_nil_iff]
      intro t ht
      have hmem : t ∈ (if isMonotonicIncreasing hist.index then hist
          else sortFrame hist).columns.map Prod.fst := by
        by_cases hmono : isMonotonicIncreasing hist.index
        · rw [if_pos hmono]
          exact hall t ht
        · rw [if_neg hmono, sortFrame_columns_fst]
          exact hall t ht
      simp [hmem]
    simp only [calculate_portfolio_daily_returns]
    rw [if_neg hor, if_neg (by simp [hdt])]
    simp only [hmissing]
    rw [if_neg (not_not_intro rfl)]

/-- C7 witness: a table that is not a `DatetimeIndex` raises the contract
error. -/
theorem index_check_amended_witness :
    calculate_portfolio_daily_returns ⟨false, [0], [("A", [1])]⟩ [] [] =
      Except.error
        "Historical data must have DatetimeIndex for backtesting calculations" := by
  exact (index_check_amended ⟨false, [0], [("A", [1])]⟩ [] []
    (by simp) (by simp)).1 rfl

/-- C8: a cache miss fetches the series once, writes its serialized form
under the (ticker, period) price key, and an immediately following fetch for
the same key reads the cached entry back as the identical series — same dates
and same values — with zero network calls and no new writes. -/
theorem cache_round_trip (net : String → String → Option PriceSeries)
    (period ticker : String) (cache : List (String × CachedSeries))
    (data : PriceSeries)
    (hmiss : cache_get cache (generate_cache_key ticker period "prices") = none)
    (hnet : net ticker period = some data) (hne : data ≠ []) :
    fetch_ticker_data net period ticker cache =
      (Except.ok data,
        [(generate_cache_key ticker period "prices", serialize_series data)], 1) ∧
    fetch_ticker_data net period ticker
        (apply_writes cache
          [(generate_cache_key ticker period "prices", serialize_series data)]) =
      (Except.ok data, [], 0) := by
  have hdeser : deserialize_series (serialize_series data) = data := by
    rw [deserialize_series, serialize_series]
    exact (List.zip_of_prod rfl rfl).symm
  constructor
  · simp only [fetch_ticker_data, hmiss, hnet]
    rw [if_neg hne]
  · have hkey : cache_get
        (apply_writes cache
          [(generate_cache_key ticker period "prices", serialize_series data)])
        (generate_cache_key ticker period "prices") = some (serialize_series data) := by
      simp [cache_get, apply_writes, List.lookup]
    simp only [fetch_ticker_data, hkey, hdeser]

/-- C8 witness: ticker "AAPL", period "1y", empty cache, a one-point series. -/
theorem cache_round_trip_witness :
    fetch_ticker_data (fun _ _ => some [((1 : ℤ), (10 : ℚ))]) "1y" "AAPL" [] =
      (Except.ok [((1 : ℤ), (10 : ℚ))],
        [(generate_cache_key "AAPL" "1y" "prices",
          serialize_series [((1 : ℤ), (10 : ℚ))])], 1) ∧
    fetch_ticker_data (fun _ _ => some [((1 : ℤ), (10 : ℚ))]) "1y" "AAPL"
        (apply_writes []
          [(generate_cache_key "AAPL" "1y" "prices",
            serialize_series [((1 : ℤ), (10 : ℚ))])]) =
      (Except.ok [((1 : ℤ), (10 : ℚ))], [], 0) := by
  exact cache_round_trip (fun _ _ => some [((1 : ℤ), (10 : ℚ))]) "1y" "AAPL" []
    [((1 : ℤ), (10 : ℚ))] rfl rfl (by simp)

/-- C9: after alignment and `dropna()`, the combined table's index contains a
date exactly when every fetched ticker (composition and benchmarks alike) has
an observation at that date; a date missing from any single series is dropped
for all tickers before any daily return is computed. -/
theorem dropna_keeps_exactly_complete_dates (results : List (String × PriceSeries))
    (hne : results ≠ []) (d : ℤ) :
    d ∈ (dropna_rows (combined_rows results)).map Prod.fst ↔
      ∀ r ∈ results, (seriesLookup r.2 d).isSome = true := by
  constructor
  · intro hd
    obtain ⟨row, hrow, hfst⟩ := List.mem_map.mp hd
    obtain ⟨row0, hrow0, heq⟩ := List.mem_filterMap.mp hrow
    by_cases hall : row0.2.all Option.isSome = true
    · rw [if_pos hall] at heq
      have hrow_eq : (row0.1, row0.2.reduceOption) = row := Option.some.inj heq
      obtain ⟨d0, _, hrow0eq⟩ := List.mem_map.mp hrow0
      intro r hr
      have hmem : seriesLookup r.2 d0 ∈ row0.2 := by
        rw [← hrow0eq]
        exact List.mem_map_of_mem _ hr
      have hsome := List.all_eq_true.mp hall _ hmem
      have h1 : row.1 = row0.1 := by rw [← hrow_eq]
      have h2 : row0.1 = d0 := by rw [← hrow0eq]
      have hd0d : d0 = d := by rw [← hfst, h1, h2]
      rw [← hd0d]
      exact hsome
    · rw [if_neg hall] at heq
      cases heq
  · intro hall
    obtain ⟨r0, hr0⟩ : ∃ r0, r0 ∈ results := by
      cases results with
      | nil => exact absurd rfl hne
      | cons a l => exact ⟨a, List.mem_cons_self a l⟩
    have hd0 : d ∈ r0.2.map Prod.fst := (seriesLookup_isSome r0.2 d).mp (hall r0 hr0)
    have hdu : d ∈ sortedUnionDates results := by
      rw [sortedUnionDates, mem_sortByKey, List.mem_dedup]
      exact List.mem_flatten.mpr ⟨r0.2.map Prod.fst, List.mem_map_of_mem _ hr0, hd0⟩
    have hallb : (results.map (fun r => seriesLookup r.2 d)).all Option.isSome = true := by
      rw [List.all_eq_true]
      intro o ho
      obtain ⟨r, hr, hro⟩ := List.mem_map.mp ho
      rw [← hro]
      exact hall r hr
    refine List.mem_map.mpr
      ⟨(d, (results.map (fun r => seriesLookup r.2 d)).reduceOption), ?_, rfl⟩
    refine List.mem_filterMap.mpr
      ⟨(d, results.map (fun r => seriesLookup r.2 d)),
        List.mem_map.mpr ⟨d, hdu, rfl⟩, ?_⟩
    rw [if_pos hallb]

/-- C9 witness: tickers "A" (dates 1, 2) and "B" (date 2 only): date 2 is in
the aligned index exactly because both series observe it. -/
theorem dropna_keeps_exactly_complete_dates_witness :
    (2 : ℤ) ∈ (dropna_rows (combined_rows
        [("A", [((1 : ℤ), (2 : ℚ)), ((2 : ℤ), (3 : ℚ))]),
         ("B", [((2 : ℤ), (5 : ℚ))])])).map Prod.fst ↔
      ∀ r ∈ [("A", [((1 : ℤ), (2 : ℚ)), ((2 : ℤ), (3 : ℚ))]),
             ("B", [((2 : ℤ), (5 : ℚ))])],
        (seriesLookup r.2 2).isSome = true := by
  exact dropna_keeps_exactly_complete_dates
    [("A", [((1 : ℤ), (2 : ℚ)), ((2 : ℤ), (3 : ℚ))]),
     ("B", [((2 : ℤ), (5 : ℚ))])] (by simp) 2

/-- C10: a ticker whose dividend fetch raises does not abort the backtest:
the failure is caught inside its task, the ticker is assigned the empty
dividend series in the gathered result, and the chart data points carry no
dividend event for that ticker — while a price-series fetch failure for any
requested ticker makes the price wave (and hence the backtest) fail. -/
theorem dividend_fetch_failure_isolated (env : BacktestEnv) (period : String)
    (tickers : List String) (fs : FetchState) (t e : String)
    (ht : t ∈ tickers)
    (hmiss : cache_get fs.cache (generate_cache_key t period "dividends") = none)
    (herr : env.divnet t = Except.error e) :
    (∀ p ∈ (download_dividend_data_concurrent env period tickers fs).1,
      p.1 = t → p.2 = []) ∧
    ((t, ([] : PriceSeries)) ∈
      (download_dividend_data_concurrent env period tickers fs).1) ∧
    (∀ (dates : List ℤ) (pc : PriceSeries) (bench : List (String × PriceSeries)),
      ∀ dp ∈ generate_data_points dates pc bench
        (download_dividend_data_concurrent env period tickers fs).1,
      ∀ ev ∈ dp.dividend_events, ev.1 ≠ t) ∧
    (∀ (net : String → String → Option PriceSeries),
      net t period = none →
      cache_get fs.cache (generate_cache_key t period "prices") = none →
      ∃ msg, (download_historical_data_cached net period tickers fs).1 =
        Except.error msg) := by
  have hfetch : fetch_dividend_data env period t fs.cache = ((t, []), [], 1) :=
    fetch_dividend_data_of_error env period t fs.cache e hmiss herr
  have ha : ∀ p ∈ (download_dividend_data_concurrent env period tickers fs).1,
      p.1 = t → p.2 = [] := by
    intro p hp hpt
    simp only [download_dividend_data_concurrent] at hp
    obtain ⟨o, ho, hpo⟩ := List.mem_map.mp hp
    obtain ⟨t', _, ho'⟩ := List.mem_map.mp ho
    have hfst : p.1 = t' := by
      rw [← hpo, ← ho']
      exact fetch_dividend_data_fst env period t' fs.cache
    have ht' : t' = t := by rw [← hfst, hpt]
    rw [← hpo, ← ho', ht', hfetch]
  refine ⟨ha, ?_, ?_, ?_⟩
  · simp only [download_dividend_data_concurrent]
    refine List.mem_map.mpr ⟨fetch_dividend_data env period t fs.cache,
      List.mem_map.mpr ⟨t, ht, rfl⟩, ?_⟩
    rw [hfetch]
  · intro dates pc bench dp hdp ev hev
    obtain ⟨d, _, hdpd⟩ := List.mem_map.mp hdp
    intro hevt
    rw [← hdpd] at hev
    simp only [generate_data_points] at hev
    obtain ⟨p, hpmem, hpev⟩ := List.mem_filterMap.mp hev
    obtain ⟨q, hq, hqev⟩ := Option.map_eq_some'.mp hpev
    have hp1 : p.1 = t := by rw [← hqev] at hevt; exact hevt
    have hp2 : p.2 = [] := ha p hpmem hp1
    rw [hp2] at hq
    cases hq
  · intro net hnetfail hpmiss
    have hfail : fetch_ticker_data net period t fs.cache =
        (Except.error ("Failed to retrieve data for " ++ t), [], 1) := by
      simp only [fetch_ticker_data, hpmiss, hnetfail]
    have hcollect : ∀ (outs : List (String ×
        (Except String PriceSeries × List (String × CachedSeries) × ℕ))),
        (∃ o ∈ outs, ∃ msg, o.2.1 = Except.error msg) →
        ∃ msg, collect_results outs = Except.error msg := by
      intro outs
      induction outs with
      | nil =>
        rintro ⟨o, ho, _⟩
        cases ho
      | cons a rest ih =>
        rintro ⟨o, ho, msg, hmsg⟩
        rcases List.mem_cons.mp ho with rfl | htail
        · exact ⟨msg, by simp [collect_results, hmsg]⟩
        · cases ha2 : a.2.1 with
          | error e2 => exact ⟨e2, by simp [collect_results, ha2]⟩
          | ok s =>
            obtain ⟨m2, hm2⟩ := ih ⟨o, htail, msg, hmsg⟩
            exact ⟨m2, by simp [collect_results, ha2, hm2, Except.map]⟩
    simp only [download_historical_data_cached]
    obtain ⟨msg, hmsg⟩ := hcollect
      (tickers.map (fun t' => (t', fetch_ticker_data net period t' fs.cache)))
      ⟨(t, fetch_ticker_data net period t fs.cache),
        List.mem_map.mpr ⟨t, ht, rfl⟩,
        "Failed to retrieve data for " ++ t, by rw [hfail]⟩
    rw [hmsg]
    exact ⟨msg, rfl⟩

/-- C1: for every daily-return series of length ≥ 2 with each return > -1,
the performance-metrics record produced by
`_calculate_performance_metrics_corrected` satisfies the spec's exact
formulas (`SpecMetrics`): the product total return, the observation count,
the annualized return at `1/years` (the `years ≤ 0` clause being vacuous
here since `years = length/252 > 0`), sample-stddev volatility annualized by
`√252`, the Sharpe ratio with the surfaced 2% risk-free assumption (0 when
the volatility is 0), and the max drawdown as the minimum relative drawdown
of the 1.0-based cumulative series, which is always ≤ 0. -/
theorem performance_metrics_match_spec (rs : List ℝ)
    (bench : List (String × List ℝ))
    (hlen : 2 ≤ rs.length) (_hpos : ∀ r ∈ rs, -1 < r) :
    ∃ m, calculate_performance_metrics_corrected rs bench = Except.ok m ∧
      SpecMetrics rs m := by
  have hnotlt : ¬ (rs.length < 2) := not_lt.mpr hlen
  have hne : rs ≠ [] := by
    intro h
    rw [h] at hlen
    simp at hlen
  have hyears : (0 : ℝ) < (rs.length : ℝ) / 252 := by
    have h2 : (0 : ℝ) < (rs.length : ℝ) := by
      have : 0 < rs.length := by omega
      exact_mod_cast this
    positivity
  have hvolnn : (0 : ℝ) ≤ sampleStd rs * Real.sqrt 252 :=
    mul_nonneg (Real.sqrt_nonneg _) (Real.sqrt_nonneg _)
  rw [calculate_performance_metrics_corrected, if_neg hnotlt]
  refine ⟨_, rfl, ?_, ?_, ?_, ?_, ?_, ?_, ?_, ?_⟩
  · rfl
  · rfl
  · show (if (0 : ℝ) < (rs.length : ℝ) / 252 then
        (1 + ((rs.map (fun r => 1 + r)).prod - 1)) ^
          (1 / ((rs.length : ℝ) / 252)) - 1 else 0) = _
    rw [if_pos hyears]
  · rfl
  · show (if (0 : ℝ) < sampleStd rs * Real.sqrt 252 then
        seriesMean (rs.map (fun r => r - 0.02 / 252)) * 252 /
          (sampleStd rs * Real.sqrt 252) else 0) = _
    by_cases hv : sampleStd rs * Real.sqrt 252 = 0
    · rw [if_neg (by rw [hv]; exact lt_irrefl 0), if_pos hv]
    · rw [if_pos (lt_of_le_of_ne hvolnn (Ne.symm hv)), if_neg hv]
  · rfl
  · show listMin (List.zipWith (fun c m => (c - m) / m)
        (calculate_cumulative_returns rs 1)
        (runningMax (calculate_cumulative_returns rs 1))) = spec_max_drawdown rs
    rw [calculate_cumulative_returns_one, drawdowns_eq_spec]
    rfl
  · show listMin (List.zipWith (fun c m => (c - m) / m)
        (calculate_cumulative_returns rs 1)
        (runningMax (calculate_cumulative_returns rs 1))) ≤ 0
    rw [calculate_cumulative_returns_one, drawdowns_eq_spec]
    exact spec_max_drawdown_nonpos rs hne

/-- C1 witness: the spec's synthetic series `[0.01, -0.02, 0.015]` (section
8) produces a metrics record. -/
theorem performance_metrics_match_spec_witness :
    (calculate_performance_metrics_corrected
      [(0.01 : ℝ), -0.02, 0.015] []).isOk = true := by
  obtain ⟨m, hm, _⟩ := performance_metrics_match_spec [(0.01 : ℝ), -0.02, 0.015] []
    (by simp) (by
      intro r hr
      fin_cases hr <;> norm_num)
  rw [hm]
  rfl

/-- C10 witness: ticker "AAPL" with a failing dividend fetch is assigned the
empty dividend series. -/
theorem dividend_fetch_failure_isolated_witness :
    ("AAPL", ([] : PriceSeries)) ∈
      (download_dividend_data_concurrent
        ⟨fun _ _ => none, fun _ => Except.error "boom", 0⟩ "1y" ["AAPL"]
        ⟨[], 0⟩).1 := by
  exact (dividend_fetch_failure_isolated
    ⟨fun _ _ => none, fun _ => Except.error "boom", 0⟩ "1y" ["AAPL"] ⟨[], 0⟩
    "AAPL" "boom" (by simp) rfl rfl).2.1

/-- C3 counterexample: a single position of quantity 1 priced at 0.001 with
zero cost basis.  The claim says the returned `total_value` equals
`quantity * current_price = 0.001`, but the service rounds every monetary
output with `round(x, 2)` and returns 0. -/
theorem get_portfolio_valuation_exact_sum_cex :
    get_portfolio_valuation (fun _ => Except.ok ((1 : ℚ)/1000))
      [⟨1, "P", [⟨"A", 1, 0⟩]⟩] 1 = Except.ok ⟨1, "P", 0, 0, 0, 0, 1⟩ ∧
    (0 : ℚ) ≠ 1 * ((1 : ℚ)/1000) := by
  have hloop : valuate_positions (fun _ => Except.ok ((1 : ℚ)/1000))
      [⟨"A", 1, 0⟩] 0 0 0 =
      Except.ok (0 + 1 * ((1 : ℚ)/1000), 0 + 1 * 0, 0 + 1) := rfl
  have hr0 : round2 ((1 : ℚ)/1000) = 0 := by
    rw [round2, roundHalfEven]
    norm_num
  have hr1 : round2 (0 : ℚ) = 0 := by
    rw [round2, roundHalfEven]
    norm_num
  refine ⟨?_, by norm_num⟩
  simp only [get_portfolio_valuation, List.find?, beq_self_eq_true, hloop]
  norm_num [hr0, hr1]

/-- C3 (amended): for an existing portfolio all of whose positions have a
retrievable current price, `get_portfolio_valuation` returns the record whose
monetary fields are the spec's sums and ratios rounded to 2 decimal places
(`total_pnl` and `total_pnl_percentage` are computed from the unrounded sums
and then rounded); a portfolio with no positions yields the zero-valued
record, not an error. -/
theorem get_portfolio_valuation_rounded (prices : String → Except String ℚ)
    (portfolios : List Portfolio) (pid : ℕ) (portfolio : Portfolio)
    (pr : Position → ℚ)
    (hfind : portfolios.find? (fun p => p.id == pid) = some portfolio)
    (hprices : ∀ pos ∈ portfolio.positions, prices pos.ticker = Except.ok (pr pos)) :
    (portfolio.positions = [] →
      get_portfolio_valuation prices portfolios pid =
        Except.ok ⟨pid, portfolio.name, 0, 0, 0, 0, 0⟩) ∧
    (portfolio.positions ≠ [] →
      get_portfolio_valuation prices portfolios pid =
        Except.ok ⟨pid, portfolio.name,
          round2 ((portfolio.positions.map (fun pos => pos.quantity * pr pos)).sum),
          round2 ((portfolio.positions.map
            (fun pos => pos.quantity * pos.purchase_price)).sum),
          round2 ((portfolio.positions.map (fun pos => pos.quantity * pr pos)).sum -
            (portfolio.positions.map
              (fun pos => pos.quantity * pos.purchase_price)).sum),
          round2 (if 0 < (portfolio.positions.map
              (fun pos => pos.quantity * pos.purchase_price)).sum then
            ((portfolio.positions.map (fun pos => pos.quantity * pr pos)).sum -
              (portfolio.positions.map
                (fun pos => pos.quantity * pos.purchase_price)).sum) /
              (portfolio.positions.map
                (fun pos => pos.quantity * pos.purchase_price)).sum * 100
            else 0),
          portfolio.positions.length⟩) := by
  constructor
  · intro hempty
    simp [get_portfolio_valuation, hfind, hempty]
  · intro hne
    have hloop := valuate_positions_ok prices pr portfolio.positions 0 0 0 hprices
    simp only [zero_add] at hloop
    simp [get_portfolio_valuation, hfind, hne, hloop]

/-- C3 witness: one position of quantity 2, purchase price 3, current price 5
in portfolio 7. -/
theorem get_portfolio_valuation_rounded_witness :
    get_portfolio_valuation (fun _ => Except.ok (5 : ℚ))
      [⟨7, "W", [⟨"T", 2, 3⟩]⟩] 7 =
      Except.ok ⟨7, "W",
        round2 (([⟨"T", 2, 3⟩] : List Position).map
          (fun pos => pos.quantity * (5 : ℚ))).sum,
        round2 (([⟨"T", 2, 3⟩] : List Position).map
          (fun pos => pos.quantity * pos.purchase_price)).sum,
        round2 ((([⟨"T", 2, 3⟩] : List Position).map
            (fun pos => pos.quantity * (5 : ℚ))).sum -
          (([⟨"T", 2, 3⟩] : List Position).map
            (fun pos => pos.quantity * pos.purchase_price)).sum),
        round2 (if 0 < (([⟨"T", 2, 3⟩] : List Position).map
            (fun pos => pos.quantity * pos.purchase_price)).sum then
          ((([⟨"T", 2, 3⟩] : List Position).map
              (fun pos => pos.quantity * (5 : ℚ))).sum -
            (([⟨"T", 2, 3⟩] : List Position).map
              (fun pos => pos.quantity * pos.purchase_price)).sum) /
            (([⟨"T", 2, 3⟩] : List Position).map
              (fun pos => pos.quantity * pos.purchase_price)).sum * 100
          else 0),
        1⟩ := by
  have h := (get_portfolio_valuation_rounded (fun _ => Except.ok (5 : ℚ))
    [⟨7, "W", [⟨"T", 2, 3⟩]⟩] 7 ⟨7, "W", [⟨"T", 2, 3⟩]⟩ (fun _ => (5 : ℚ))
    (by rfl) (by intro pos _; rfl)).2 (by simp)
  simpa using h

/-- C4: any single price-fetch failure aborts the whole valuation; no partial
valuation is produced (the result is an error, not a record built from the
positions that did price). -/
theorem get_portfolio_valuation_fail_fast (prices : String → Except String ℚ)
    (portfolios : List Portfolio) (pid : ℕ) (portfolio : Portfolio)
    (pos : Position) (e : String)
    (hfind : portfolios.find? (fun p => p.id == pid) = some portfolio)
    (hpos : pos ∈ portfolio.positions)
    (herr : prices pos.ticker = Except.error e) :
    ∃ msg, get_portfolio_valuation prices portfolios pid = Except.error msg := by
  have hne : portfolio.positions ≠ [] := by
    intro h
    rw [h] at hpos
    cases hpos
  obtain ⟨msg, hmsg⟩ :=
    valuate_positions_error prices portfolio.positions 0 0 0 ⟨pos, hpos, e, herr⟩
  exact ⟨msg, by simp [get_portfolio_valuation, hfind, hne, hmsg]⟩

/-- C4 witness: a two-position portfolio in which the second position's price
fetch fails while the first prices fine; the valuation returns no record. -/
theorem get_portfolio_valuation_fail_fast_witness :
    (get_portfolio_valuation
      (fun t => if t = "B" then Except.error "down" else Except.ok (10 : ℚ))
      [⟨1, "P", [⟨"A", 1, 1⟩, ⟨"B", 2, 2⟩]⟩] 1).isOk = false := by
  obtain ⟨msg, hmsg⟩ := get_portfolio_valuation_fail_fast
    (fun t => if t = "B" then Except.error "down" else Except.ok (10 : ℚ))
    [⟨1, "P", [⟨"A", 1, 1⟩, ⟨"B", 2, 2⟩]⟩] 1 ⟨1, "P", [⟨"A", 1, 1⟩, ⟨"B", 2, 2⟩]⟩
    ⟨"B", 2, 2⟩ "down" (by rfl) (by simp) (by rfl)
  rw [hmsg]
  rfl

/-- C5 (code bug): `create_snapshot_for_portfolio` never persists a snapshot
and always raises.  The service calls `PortfolioRepository.create_snapshot`
with a `timestamp=` keyword the repository signature
`create_snapshot(self, portfolio_id, value)` does not accept, so the call
raises `TypeError`; the `except` handler then evaluates `self.db.rollback()`
on a service that never sets `self.db`, raising `AttributeError`.  On the
valuation-failure path the same handler is reached, so in every case no
snapshot is written, the store is unchanged, and a failure propagates. -/
theorem create_snapshot_never_persists (prices : String → Except String ℚ)
    (portfolios : List Portfolio) (pid : ℕ) (now : ℤ)
    (snapshots : List PortfolioSnapshot) :
    (create_snapshot_for_portfolio prices portfolios pid now snapshots).2 =
        snapshots ∧
      ∃ e, (create_snapshot_for_portfolio prices portfolios pid now snapshots).1 =
        Except.error e := by
  have hb : bind_keywords create_snapshot_params create_snapshot_call_kwargs =
      Except.error "TypeError: got an unexpected keyword argument timestamp" := by rfl
  cases hv : get_portfolio_valuation prices portfolios pid with
  | error e =>
    exact ⟨by simp [create_snapshot_for_portfolio, hv],
      "AttributeError: PortfolioService object has no attribute db",
      by simp [create_snapshot_for_portfolio, hv]⟩
  | ok valuation =>
    exact ⟨by simp [create_snapshot_for_portfolio, hv, hb],
      "AttributeError: PortfolioService object has no attribute db",
      by simp [create_snapshot_for_portfolio, hv, hb]⟩

/-- C6: the monthly-growth computation never raises for missing data: it is
`none` when the scope is empty, when either AUM aggregate is `NULL` or zero,
and in particular when no in-scope portfolio has a snapshot at or before the
month start even though current snapshots exist; otherwise it returns
`current_total / start_total - 1` rounded to 4 decimal places.  (The embedded
function is total, mirroring the `try`/`except` that converts any exception
to `None`.) -/
theorem calculate_monthly_growth_spec (portfolio_ids : List ℕ)
    (snapshots : List PortfolioSnapshot) (month_start : ℤ) :
    (portfolio_ids = [] →
      calculate_monthly_growth portfolio_ids snapshots month_start = none) ∧
    (sum_values (current_aum_rows portfolio_ids snapshots) = none →
      calculate_monthly_growth portfolio_ids snapshots month_start = none) ∧
    (sum_values (current_aum_rows portfolio_ids snapshots) = some 0 →
      calculate_monthly_growth portfolio_ids snapshots month_start = none) ∧
    (sum_values (month_start_aum_rows portfolio_ids snapshots month_start) = none →
      calculate_monthly_growth portfolio_ids snapshots month_start = none) ∧
    (sum_values (month_start_aum_rows portfolio_ids snapshots month_start) = some 0 →
      calculate_monthly_growth portfolio_ids snapshots month_start = none) ∧
    ((∀ s ∈ snapshots, s.portfolio_id ∈ portfolio_ids → month_start < s.timestamp) →
      calculate_monthly_growth portfolio_ids snapshots month_start = none) ∧
    (∀ current_total start_total : ℚ,
      sum_values (current_aum_rows portfolio_ids snapshots) = some current_total →
      current_total ≠ 0 →
      sum_values (month_start_aum_rows portfolio_ids snapshots month_start) =
        some start_total →
      start_total ≠ 0 →
      calculate_monthly_growth portfolio_ids snapshots month_start =
        some (round4 (current_total / start_total - 1))) := by
  refine ⟨?_, ?_, ?_, ?_, ?_, ?_, ?_⟩
  · intro h
    simp [calculate_monthly_growth, h]
  · intro h
    unfold calculate_monthly_growth
    rw [h]
    split <;> rfl
  · intro h
    unfold calculate_monthly_growth
    rw [h]
    split <;> simp
  · exact monthly_growth_none_of_start_none portfolio_ids snapshots month_start
  · intro h
    unfold calculate_monthly_growth
    rw [h]
    split
    · rfl
    · cases hcur : sum_values (current_aum_rows portfolio_ids snapshots) with
      | none => rfl
      | some ca =>
        by_cases hz : ca = 0
        · simp [hz]
        · simp [hz]
  · intro h
    apply monthly_growth_none_of_start_none
    have hrows : month_start_aum_rows portfolio_ids snapshots month_start = [] := by
      rw [month_start_aum_rows, List.filter_eq_nil_iff]
      intro s hs
      simp only [Bool.and_eq_true, not_and]
      intro hcont
      have hin : s.portfolio_id ∈ portfolio_ids := by simpa using hcont
      have hlat : latest_timestamp_before snapshots s.portfolio_id month_start = none := by
        rw [latest_timestamp_before]
        have hfil : snapshots.filter
            (fun q => q.portfolio_id == s.portfolio_id &&
              decide (q.timestamp ≤ month_start)) = [] := by
          rw [List.filter_eq_nil_iff]
          intro q hq
          simp only [Bool.and_eq_true, beq_iff_eq, decide_eq_true_eq, not_and]
          intro hqid
          have := h q hq (by rw [hqid]; exact hin)
          omega
        rw [hfil]
        rfl
      simp [hlat]
    rw [hrows]
    rfl
  · intro current_total start_total hcur hcz hst hsz
    unfold calculate_monthly_growth
    have hids : portfolio_ids ≠ [] := by
      intro hnil
      rw [hnil] at hcur
      have hempty : current_aum_rows [] snapshots = [] := by
        rw [current_aum_rows, List.filter_eq_nil_iff]
        intro s _
        simp
      rw [hempty] at hcur
      simp [sum_values] at hcur
    rw [if_neg hids, hcur, hst]
    simp [hcz, hsz]

/-- C6 witness: scope is portfolio 1, start-of-month aggregate 100000 (its
snapshot at time 0, before the month start 5), current aggregate 105750 (its
snapshot at time 10): growth is round(105750/100000 - 1, 4). -/
theorem calculate_monthly_growth_spec_witness :
    calculate_monthly_growth [1] [⟨1, 100000, 0⟩, ⟨1, 105750, 10⟩] 5 =
      some (round4 ((105750 : ℚ) / 100000 - 1)) := by
  have hcur : sum_values (current_aum_rows [1] [⟨1, 100000, 0⟩, ⟨1, 105750, 10⟩]) =
      some 105750 := by
    have hrows : current_aum_rows [1] [⟨1, 100000, 0⟩, ⟨1, 105750, 10⟩] =
        [⟨1, 105750, 10⟩] := rfl
    rw [hrows]
    simp [sum_values]
  have hst : sum_values (month_start_aum_rows [1]
      [⟨1, 100000, 0⟩, ⟨1, 105750, 10⟩] 5) = some 100000 := by
    have hrows : month_start_aum_rows [1] [⟨1, 100000, 0⟩, ⟨1, 105750, 10⟩] 5 =
        [⟨1, 100000, 0⟩] := rfl
    rw [hrows]
    simp [sum_values]
  exact (calculate_monthly_growth_spec [1] [⟨1, 100000, 0⟩, ⟨1, 105750, 10⟩]
    5).2.2.2.2.2.2 105750 100000 hcur (by norm_num) hst (by norm_num)

end CactusWealth
